import Mathlib

/-!
Verification development for the multi-ecosystem dependency extraction
engine of the sca_ai_scanner package (Python, JavaScript and container
manifest parsers plus the file discovery and merge engine).

The definitions below are a shallow embedding of the Python source:

- core/models.py       : FileType, SourceLocation, Package
- parsers/base.py      : normalization, validation, inclusion policy and
                         the parse_all_files merge fold
- parsers/python.py    : requirement-line grammar and requirements.txt
                         parsing (with recursive -r includes)
- parsers/javascript.py: package.json section parsing, npm version
                         normalization, yarn.lock line scanning
- parsers/docker.py    : Dockerfile line continuations, FROM and RUN
                         instruction parsing (apt / yum / apk / pip / npm)
- cli.py               : discover_dependencies cross-parser fold

Machine strings are modelled as Lean String; Python str.strip, lower,
split, rsplit and friends are reproduced with explicit helpers so that a
concrete input can be evaluated by the kernel.
-/

/-! ## String helpers mirroring the Python str methods used by the source

The helpers work on the character list underlying the string so that a
closed input evaluates inside the kernel. -/

/-- Python regex whitespace class restricted to ASCII, matching what
str.strip removes on the inputs this scanner handles. -/
def isPyWhitespace (c : Char) : Bool :=
  c = ' ' || c = '\t' || c = '\n' || c = '\x0b' || c = '\x0c' || c = '\r'

/-- Case-sensitive literal match consuming the literal, returning the
remainder. -/
def matchLitCS : List Char → List Char → Option (List Char)
  | [], l => some l
  | _ :: _, [] => none
  | p :: ps, c :: cs => if p = c then matchLitCS ps cs else none

/-- Index of the first occurrence of a pattern as a contiguous
sub-sequence. -/
def findSubIdx (pat : List Char) : List Char → Option Nat
  | [] => if (matchLitCS pat []).isSome then some 0 else none
  | c :: cs =>
      if (matchLitCS pat (c :: cs)).isSome then some 0
      else (findSubIdx pat cs).map (· + 1)

/-- Index of the last occurrence of a pattern. -/
def findSubIdxLast (pat : List Char) : List Char → Option Nat
  | [] => if (matchLitCS pat []).isSome then some 0 else none
  | c :: cs =>
      match findSubIdxLast pat cs with
      | some i => some (i + 1)
      | none => if (matchLitCS pat (c :: cs)).isSome then some 0 else none

/-- Python membership test sub in s. -/
def strContainsSub (s sub : String) : Bool :=
  (findSubIdx sub.toList s.toList).isSome

/-- Python str.split(sep, 1): split at the first occurrence of a
non-empty separator; none when the separator does not occur. -/
def splitOnce (s sep : String) : Option (String × String) :=
  match findSubIdx sep.toList s.toList with
  | none => none
  | some i =>
      some (String.mk (s.toList.take i),
        String.mk (s.toList.drop (i + sep.toList.length)))

/-- Python str.rsplit(sep, 1): split at the last occurrence of a
non-empty separator; none when the separator does not occur. -/
def rsplitOnce (s sep : String) : Option (String × String) :=
  match findSubIdxLast sep.toList s.toList with
  | none => none
  | some i =>
      some (String.mk (s.toList.take i),
        String.mk (s.toList.drop (i + sep.toList.length)))

/-- Text before the first occurrence of sep, the whole string when sep
does not occur (Python split(sep)[0]). -/
def beforeFirst (s sep : String) : String :=
  match findSubIdx sep.toList s.toList with
  | none => s
  | some i => String.mk (s.toList.take i)

/-- Python str.strip(chars): drop characters of the given set from both
ends. -/
def trimChars (s : String) (cs : List Char) : String :=
  let l := s.toList.dropWhile (fun c => cs.contains c)
  let r := l.reverse.dropWhile (fun c => cs.contains c)
  String.mk r.reverse

/-- Python str.rstrip(chars): drop characters of the given set from the
right end only. -/
def rtrimChars (s : String) (cs : List Char) : String :=
  String.mk (s.toList.reverse.dropWhile (fun c => cs.contains c)).reverse

/-- Python str.strip(): whitespace from both ends. -/
def pyStrip (s : String) : String :=
  String.mk
    ((s.toList.dropWhile isPyWhitespace).reverse.dropWhile
      isPyWhitespace).reverse

/-- Python str.rstrip(): trailing whitespace only. -/
def rtrimWs (s : String) : String :=
  String.mk (s.toList.reverse.dropWhile isPyWhitespace).reverse

/-- Python str.startswith. -/
def pyStarts (s pat : String) : Bool :=
  (matchLitCS pat.toList s.toList).isSome

/-- Python str.endswith. -/
def pyEnds (s pat : String) : Bool :=
  (matchLitCS pat.toList.reverse s.toList.reverse).isSome

/-- Python slice s[n:]. -/
def dropChars (s : String) (n : Nat) : String :=
  String.mk (s.toList.drop n)

/-- Fueled scan replacing every non-overlapping occurrence of a
non-empty pattern, left to right; fuel equal to the length always
suffices. -/
def replaceSubAux (pat rep : List Char) : Nat → List Char → List Char
  | 0, l => l
  | _ + 1, [] => []
  | fuel + 1, c :: cs =>
      match matchLitCS pat (c :: cs) with
      | some rest => rep ++ replaceSubAux pat rep fuel rest
      | none => c :: replaceSubAux pat rep fuel cs

/-- Python str.replace (all occurrences). -/
def replaceSub (s pat rep : String) : String :=
  String.mk (replaceSubAux pat.toList rep.toList s.toList.length s.toList)

/-- Split on a character predicate, keeping empty pieces. -/
def splitPredCL (p : Char → Bool) : List Char → List (List Char)
  | [] => [[]]
  | c :: cs =>
      if p c then [] :: splitPredCL p cs
      else
        match splitPredCL p cs with
        | [] => [[c]]
        | h :: t => (c :: h) :: t

/-- Python str.split(): split on whitespace runs, dropping empty
pieces. -/
def pySplitWs (s : String) : List String :=
  ((splitPredCL isPyWhitespace s.toList).map String.mk).filter
    (fun x => x ≠ "")

/-- Fueled split on every occurrence of a non-empty separator. -/
def splitAllAux (sep : List Char) : Nat → List Char → List (List Char)
  | 0, l => [l]
  | _ + 1, [] => [[]]
  | fuel + 1, c :: cs =>
      match matchLitCS sep (c :: cs) with
      | some rest => [] :: splitAllAux sep fuel rest
      | none =>
          match splitAllAux sep fuel cs with
          | [] => [[c]]
          | h :: t => (c :: h) :: t

/-- Python str.split(sep) for a non-empty separator. -/
def splitAllS (s sep : String) : List String :=
  (splitAllAux sep.toList s.toList.length s.toList).map String.mk

/-- Python str.lower restricted to ASCII, which is what the scanner
feeds it. -/
def strLower (s : String) : String :=
  String.mk (s.toList.map Char.toLower)

/-- Python str.upper restricted to ASCII. -/
def strUpper (s : String) : String :=
  String.mk (s.toList.map Char.toUpper)

/-- Dot-notation wrapper for pyStrip. -/
def String.pyTrim (s : String) : String := pyStrip s

/-- Dot-notation wrapper for pyStarts. -/
def String.pyStartsWith (s pat : String) : Bool := pyStarts s pat

/-- Dot-notation wrapper for pyEnds. -/
def String.pyEndsWith (s pat : String) : Bool := pyEnds s pat

/-- Dot-notation wrapper for dropChars. -/
def String.pyDrop (s : String) (n : Nat) : String := dropChars s n

/-- Dot-notation wrapper for replaceSub. -/
def String.pyReplace (s pat rep : String) : String := replaceSub s pat rep

/-- Dot-notation wrapper for strUpper. -/
def String.pyUpper (s : String) : String := strUpper s

namespace SCA

/-- Supported dependency file types (core/models.py, class FileType). -/
inductive FileType where
  | REQUIREMENTS
  | PYPROJECT_TOML
  | PACKAGE_JSON
  | YARN_LOCK
  | DOCKERFILE
  | COMPOSER_JSON
  | GEMFILE
  | GO_MOD
deriving DecidableEq, Repr

/-- Precise location where a dependency is declared
(core/models.py, class SourceLocation). -/
structure SourceLocation where
  file_path : String
  line_number : Nat
  declaration : String
  file_type : FileType
deriving DecidableEq, Repr

/-- Package dependency with complete source location tracking
(core/models.py, class Package). -/
structure Package where
  name : String
  version : String
  source_locations : List SourceLocation
  ecosystem : String
deriving DecidableEq, Repr

/-! ## parsers/base.py : normalization, validation, inclusion policy -/

/-- DependencyParser.normalize_package_name: strip then lower. -/
def normalize_package_name (name : String) : String :=
  strLower name.pyTrim

/-- DependencyParser.validate_package_name: non-empty after strip. -/
def validate_package_name (name : String) : Bool :=
  name.pyTrim ≠ ""

/-- DependencyParser.validate_version: non-empty after strip. -/
def validate_version (version : String) : Bool :=
  version.pyTrim ≠ ""

/-- DependencyParser.normalize_version: strip, drop leading version
operators (sequentially, no break in the source loop), cut at an
environment-marker semicolon, strip surrounding quotes. -/
def normalize_version (version : String) : String :=
  let v := version.pyTrim
  let v := [">=", "<=", "==", "!=", "~=", ">", "<", "^", "~"].foldl
    (fun a p => if a.pyStartsWith p then (a.pyDrop p.length).pyTrim else a) v
  let v := if strContainsSub v ";" then (beforeFirst v ";").pyTrim else v
  trimChars v ['"', '\'']

/-- Development-package name fragments excluded by the base policy
(DependencyParser.should_include_package). -/
def dev_indicators : List String :=
  ["test", "dev", "debug", "mock", "stub", "example", "sample", "demo"]

/-- DependencyParser.should_include_package: validation plus the base
substring filter on the lowered name. -/
def should_include_package_base (name version : String) : Bool :=
  validate_package_name name &&
  validate_version version &&
  !(dev_indicators.any (fun ind => strContainsSub (strLower name) ind))

/-! ## parsers/base.py and cli.py : the merge folds -/

/-- Merge key used by DependencyParser.parse_all_files
(f-string name:version). -/
def mergeKeyNV (p : Package) : String :=
  p.name ++ ":" ++ p.version

/-- Merge key used by cli.discover_dependencies
(f-string name:version:ecosystem). -/
def mergeKeyNVE (p : Package) : String :=
  p.name ++ ":" ++ p.version ++ ":" ++ p.ecosystem

/-- One step of the de-duplication dict fold: if the key is present the
existing record gets the new source locations appended, otherwise the
package is inserted at the end (insertion-ordered dict). -/
def insertBy (key : Package → String) (acc : List Package) (p : Package) :
    List Package :=
  if acc.any (fun q => key q == key p) then
    acc.map (fun q =>
      if key q == key p then
        { q with source_locations := q.source_locations ++ p.source_locations }
      else q)
  else acc ++ [p]

/-- Fold a flat package list into the de-duplication map. -/
def foldInsertBy (key : Package → String) (l : List Package) : List Package :=
  l.foldl (insertBy key) []

/-- DependencyParser.parse_all_files (base.py lines 75-112): each
discovered file either raises (error, caught and skipped) or yields a
package list whose members are merged into the insertion-ordered dict
keyed by name:version. -/
def parse_all_files (results : List (Except String (List Package))) :
    List Package :=
  results.foldl
    (fun acc r =>
      match r with
      | Except.error _ => acc
      | Except.ok pkgs => pkgs.foldl (insertBy mergeKeyNV) acc)
    []

/-- Concatenation of the successfully parsed package lists, in file
discovery order (the all_packages.extend loop of the source, with
failing entries skipped). -/
def okConcat : List (Except String (List Package)) → List Package
  | [] => []
  | Except.error _ :: rs => okConcat rs
  | Except.ok pkgs :: rs => pkgs ++ okConcat rs

/-- cli.discover_dependencies (cli.py lines 380-422): concatenate the
per-parser results (a failing parser is caught and skipped), then fold
into the dict keyed by name:version:ecosystem. -/
def discover_dependencies
    (parserResults : List (Except String (List Package))) : List Package :=
  (okConcat parserResults).foldl (insertBy mergeKeyNVE) []

/-! ## parsers/base.py : source location construction -/

/-- DependencyParser.create_source_location. The absolute-path
resolution of the source is modelled as the identity on the already
absolute path string; the declaration text is stripped. -/
def create_source_location (file_path : String) (line_number : Nat)
    (declaration : String) (file_type : FileType) : SourceLocation :=
  { file_path := file_path
    line_number := line_number
    declaration := declaration.pyTrim
    file_type := file_type }

/-! ## parsers/python.py : the Python manifest parser -/

/-- Packages kept for security scanning even though the base filter
would drop them (PythonParser.should_include_package). -/
def security_relevant_packages : List String :=
  ["pytest", "coverage", "tox", "setuptools", "wheel", "twine", "build"]

/-- Pure formatting and linting tools excluded by the Python policy. -/
def python_dev_packages : List String :=
  ["black", "flake8", "mypy", "pylint", "pre-commit"]

/-- PythonParser.should_include_package: validation, the security
allow-list override, the base filter, then the Python dev-tool list. -/
def should_include_package_python (name version : String) : Bool :=
  if !validate_package_name name then false
  else if !validate_version version then false
  else if security_relevant_packages.contains (strLower name) then true
  else if !should_include_package_base name version then false
  else if python_dev_packages.contains (strLower name) then false
  else true

/-- Modelled after urllib.parse.urlparse restricted to the path
component for scheme:rest and scheme://netloc/path shaped inputs, the
shapes the requirement-line URL branch feeds it. -/
def urlparse_path (s : String) : String :=
  match splitOnce s ":" with
  | none => s
  | some (_, rest) =>
      if rest.pyStartsWith "//" then
        let rest2 := rest.pyDrop 2
        match splitOnce rest2 "/" with
        | none => ""
        | some (_, p) => "/" ++ p
      else rest

/-- Leftmost match of the extras pattern (an opening bracket, one or
more non-closing-bracket characters, a closing bracket), returning the
whole matched text. -/
def findExtrasGroup : List Char → Option (List Char)
  | [] => none
  | c :: rest =>
      if c = '[' then
        let content := rest.takeWhile (fun d => d ≠ ']')
        if content ≠ [] && rest.length > content.length then
          some ('[' :: (content ++ [']']))
        else findExtrasGroup rest
      else findExtrasGroup rest

/-- String wrapper for the extras search. -/
def findExtrasGroupS (line : String) : Option String :=
  (findExtrasGroup line.toList).map String.mk

/-- Version operators checked longest first (the source sorts by length
descending with a stable sort, leaving this exact order). -/
def version_operators : List String :=
  [">=", "<=", "==", "!=", "~=", ">", "<"]

/-- First operator of the ordered list occurring in the string. -/
def firstOperatorIn (s : String) : Option String :=
  version_operators.find? (fun op => strContainsSub s op)

/-- Fallback branch of PythonParser._parse_requirement_line for
declarations without a usable version operator: the whole remaining
text is the name and the version is latest. Only the base name
validation is applied here. -/
def requirement_line_fallback (line_no_extras : String) (file_path : String)
    (line_num : Nat) (original_line : String) : Option Package :=
  let name := line_no_extras.pyTrim
  if validate_package_name name then
    some { name := normalize_package_name name
           version := "latest"
           source_locations :=
             [create_source_location file_path line_num original_line.pyTrim
               FileType.REQUIREMENTS]
           ecosystem := "pypi" }
  else none

/-- PythonParser._parse_requirement_line (python.py lines 110-243).
Inline comments are stripped first, then the editable flag, the URL
branch, the environment marker and the extras group are peeled off, and
finally the name is split from the version at the first operator found.
The editable flag, URL, extras and marker feed only the enhanced name
the source computes and then discards, so they do not surface in the
returned Package. -/
def parse_requirement_line (line : String) (file_path : String)
    (line_num : Nat) (original_line : String) : Option Package :=
  let line := if strContainsSub line "#" then (beforeFirst line "#").pyTrim else line
  if line = "" then none
  else
    let line :=
      if line.pyStartsWith "-e " then (line.pyDrop 3).pyTrim
      else if line.pyStartsWith "--editable " then (line.pyDrop 11).pyTrim
      else line
    let line :=
      if ["git+", "http://", "https://", "file:"].any
          (fun p => strContainsSub line p) then
        if strContainsSub line "#egg=" then
          match splitOnce line "#egg=" with
          | some (_, egg) => egg.pyTrim
          | none => line
        else
          let path := urlparse_path line
          if path ≠ "" then
            match (splitAllS (trimChars path ['/']) "/").reverse with
            | [] => line
            | lastPart :: _ => lastPart.pyReplace ".git" ""
          else line
      else line
    let line :=
      if strContainsSub line ";" then
        match splitOnce line ";" with
        | some (l, _) => l.pyTrim
        | none => line
      else line
    let line_no_extras :=
      match findExtrasGroupS line with
      | some g => line.pyReplace g ""
      | none => line
    match firstOperatorIn line_no_extras with
    | some op =>
        match splitOnce line_no_extras op with
        | some (n, v) =>
            let name := n.pyTrim
            let version := v.pyTrim
            let version :=
              if strContainsSub version "," then (beforeFirst version ",").pyTrim
              else version
            if should_include_package_python name version then
              some { name := normalize_package_name name
                     version := op ++ version
                     source_locations :=
                       [create_source_location file_path line_num
                         original_line.pyTrim FileType.REQUIREMENTS]
                     ecosystem := "pypi" }
            else
              -- the source breaks out of the operator loop and falls
              -- through to the no-version branch
              requirement_line_fallback line_no_extras file_path line_num
                original_line
        | none =>
            requirement_line_fallback line_no_extras file_path line_num
              original_line
    | none =>
        requirement_line_fallback line_no_extras file_path line_num
          original_line

/-- A project tree modelled as a map from file path to file lines. -/
def FS : Type := List (String × List String)

/-- Filesystem lookup. -/
def lookupFS (fs : FS) (path : String) : Option (List String) :=
  match fs with
  | [] => none
  | e :: rest => if e.1 == path then some e.2 else lookupFS rest path

/-- Directory part of a path (text before the last slash, empty for a
bare file name). -/
def dirOf (p : String) : String :=
  match rsplitOnce p "/" with
  | none => ""
  | some (d, _) => d

/-- Path join modelling pathlib file_path.parent / relative. -/
def joinPath (dir rel : String) : String :=
  if dir = "" then rel else dir ++ "/" ++ rel

/-- Pair each line with its 1-indexed line number. -/
def enum1 (lines : List String) : List (Nat × String) :=
  (lines.foldl (fun st l => (st.1 + 1, st.2 ++ [(st.1, l)])) (1, [])).2

/-- Line loop of PythonParser._parse_requirements_txt. The include
directive recurses through the subParse callback; an include whose file
exists but whose recursive parse does not complete makes the whole
parse incomplete (none), modelling the unbounded Python recursion. -/
def parseReqLines (subParse : String → Option (List Package)) (fs : FS)
    (path : String) : List (Nat × String) → Option (List Package)
  | [] => some []
  | (ln, raw) :: rest =>
      let line := raw.pyTrim
      if line = "" || line.pyStartsWith "#" then
        parseReqLines subParse fs path rest
      else if line.pyStartsWith "-r " || line.pyStartsWith "--requirement " then
        match splitOnce line " " with
        | none => parseReqLines subParse fs path rest
        | some (_, incRaw) =>
            let incPath := joinPath (dirOf path) incRaw.pyTrim
            if (lookupFS fs incPath).isSome then
              match subParse incPath with
              | none => none
              | some sub =>
                  match parseReqLines subParse fs path rest with
                  | none => none
                  | some tail => some (sub ++ tail)
            else parseReqLines subParse fs path rest
      else if line.pyStartsWith "-f " || line.pyStartsWith "--find-links " then
        parseReqLines subParse fs path rest
      else
        match parse_requirement_line line path ln raw with
        | some pkg =>
            match parseReqLines subParse fs path rest with
            | none => none
            | some tail => some (pkg :: tail)
        | none => parseReqLines subParse fs path rest

/-- PythonParser._parse_requirements_txt (python.py lines 77-108),
parameterized by an include-depth fuel: the source recurses into
included files with no depth bound and no visited set, so the embedding
reports none when the include depth exceeds any given fuel. -/
def parse_requirements_txt (fs : FS) : Nat → String → Option (List Package)
  | 0, path =>
      parseReqLines (fun _ => none) fs path
        (enum1 ((lookupFS fs path).getD []))
  | n + 1, path =>
      parseReqLines (parse_requirements_txt fs n) fs path
        (enum1 ((lookupFS fs path).getD []))

/-! ## parsers/javascript.py : the JavaScript manifest parser -/

/-- JavaScript development packages excluded by exact name match
(JavaScriptParser.should_include_package). -/
def js_dev_packages : List String :=
  ["webpack", "babel", "eslint", "prettier", "jest", "mocha",
   "chai", "sinon", "karma", "jasmine", "typescript", "ts-node",
   "nodemon", "concurrently", "cross-env", "rimraf", "husky",
   "lint-staged", "@types/", "parcel", "rollup", "vite"]

/-- Development package name patterns excluded by substring match. -/
def js_dev_patterns : List String :=
  ["webpack-", "babel-", "eslint-", "@babel/", "@webpack/"]

/-- JavaScriptParser.should_include_package: the base filter plus the
exact-name list, the types scope and the pattern list. -/
def should_include_package_js (name version : String) : Bool :=
  should_include_package_base name version &&
  !(js_dev_packages.contains (strLower name)) &&
  !((strLower name).pyStartsWith "@types/") &&
  !(js_dev_patterns.any (fun pat => strContainsSub (strLower name) pat))

/-- Range markers stripped by JavaScriptParser._normalize_npm_version,
in source order (first match wins, then the loop breaks). -/
def npm_version_prefixes : List String :=
  ["^", "~", ">=", "<=", ">", "<", "="]

/-- JavaScriptParser._normalize_npm_version (javascript.py lines
113-143). Tag specs and anything unrecognized pass through unchanged,
which the final branch of the source also does. -/
def normalize_npm_version (version_spec : String) : String :=
  let v := version_spec.pyTrim
  let v :=
    match npm_version_prefixes.find? (fun p => v.pyStartsWith p) with
    | some p => (v.pyDrop p.length).pyTrim
    | none => v
  let v :=
    if strContainsSub v " - " then (beforeFirst v " - ").pyTrim
    else if strContainsSub v "||" then (beforeFirst v "||").pyTrim
    else v
  if v.pyStartsWith "git+" || v.pyStartsWith "http:" || v.pyStartsWith "https:"
      || v.pyStartsWith "git:" then "git"
  else if v.pyStartsWith "file:" then "local"
  else v

/-- The four dependency sections a package manifest may carry; a none
section is absent from the JSON object. -/
structure PackageJsonData where
  dependencies : Option (List (String × String))
  devDependencies : Option (List (String × String))
  peerDependencies : Option (List (String × String))
  optionalDependencies : Option (List (String × String))

/-- JavaScriptParser._parse_package_json_dependencies: one Package per
entry passing the inclusion policy, version normalized, location at
line 1. -/
def parse_package_json_dependencies (entries : List (String × String))
    (file_path : String) : List Package :=
  entries.foldl
    (fun acc e =>
      if should_include_package_js e.1 e.2 then
        acc ++ [{ name := normalize_package_name e.1
                  version := normalize_npm_version e.2
                  source_locations :=
                    [create_source_location file_path 1
                      ("\"" ++ e.1 ++ "\": \"" ++ e.2 ++ "\"")
                      FileType.PACKAGE_JSON]
                  ecosystem := "npm" }]
      else acc)
    []

/-- JavaScriptParser._parse_package_json (javascript.py lines 54-111):
all four sections, devDependencies included, are parsed in this fixed
order. -/
def parse_package_json (data : PackageJsonData) (file_path : String) :
    List Package :=
  [data.dependencies, data.devDependencies, data.peerDependencies,
   data.optionalDependencies].foldl
    (fun acc s =>
      match s with
      | none => acc
      | some entries => acc ++ parse_package_json_dependencies entries file_path)
    []

/-- Positions of the at sign inside a yarn package specifier. -/
def atPositions (s : String) : List Nat :=
  ((s.toList.foldl (fun st c =>
    (st.1 + 1, if c = '@' then st.2 ++ [st.1] else st.2)) (0, [])).2 :
    List Nat)

/-- JavaScriptParser._parse_yarn_package_spec (javascript.py lines
192-210): scoped specifiers split at the second at sign, plain ones at
the last. -/
def parse_yarn_package_spec (package_spec : String) :
    Option String × Option String :=
  if package_spec.pyStartsWith "@" then
    match atPositions package_spec with
    | _ :: i :: _ =>
        (some (String.mk (package_spec.toList.take i)),
         some (String.mk (package_spec.toList.drop (i + 1))))
    | _ => (some package_spec, none)
  else
    match rsplitOnce package_spec "@" with
    | some (n, v) => (some n, some v)
    | none => (some package_spec, none)

/-- JavaScriptParser._parse_yarn_lock (javascript.py lines 145-190).
Every line is stripped before the block-structure checks, so the
indentation tests of the source run on already stripped text. -/
def parse_yarn_lock (lines : List String) (file_path : String) :
    List Package :=
  ((enum1 lines).foldl
    (fun (st : List Package × Option String × Option String) e =>
      let pkgs := st.1
      let cur := st.2.1
      let raw := e.2
      let line := raw.pyTrim
      if line = "" || line.pyStartsWith "#" then st
      else if !line.pyStartsWith " " && strContainsSub line "@"
          && strContainsSub line ":" then
        let package_spec := (beforeFirst line ":").pyTrim
        let cv := parse_yarn_package_spec package_spec
        (pkgs, cv.1, cv.2)
      else if line.pyStartsWith "  version " && cur.isSome then
        let version_line := trimChars (line.pyReplace "  version " "") [' ', '"']
        match cur with
        | some cp =>
            if should_include_package_js cp version_line then
              (pkgs ++ [{ name := normalize_package_name cp
                          version := normalize_version version_line
                          source_locations :=
                            [create_source_location file_path e.1 raw.pyTrim
                              FileType.YARN_LOCK]
                          ecosystem := "npm" }], none, none)
            else (pkgs, none, none)
        | none => (pkgs, none, none)
      else st)
    ([], none, none)).1

/-! ## parsers/docker.py : the container manifest parser -/

/-- Length of the leading whitespace run. -/
def wsRunLen (l : List Char) : Nat :=
  (l.takeWhile isPyWhitespace).length

/-- Case-insensitive literal match (the command searches carry
re.IGNORECASE). -/
def matchLitCI : List Char → List Char → Option (List Char)
  | [], l => some l
  | _ :: _, [] => none
  | p :: ps, c :: cs =>
      if p.toLower = c.toLower then matchLitCI ps cs else none

/-- Tail of a pattern of the shape whitespace-plus then a non-empty
greedy group to end of line: consumes the whitespace run and returns
the rest; with only trailing whitespace left, the group backtracks to a
single space, mirroring the regex engine. -/
def matchGroupTail (l : List Char) : Option (List Char) :=
  let r := wsRunLen l
  if r = 0 then none
  else
    let rest := l.drop r
    if rest ≠ [] then some rest
    else if r ≥ 2 then some [' '] else none

/-- Match a token sequence separated by whitespace-plus, ending in
whitespace-plus and the captured rest, at the start of the text. -/
def matchTokensAt : List (List Char) → List Char → Option (List Char)
  | [], _ => none
  | [t], l => (matchLitCI t l).bind matchGroupTail
  | t :: t2 :: ts, l =>
      (matchLitCI t l).bind fun l2 =>
        let r := wsRunLen l2
        if r = 0 then none else matchTokensAt (t2 :: ts) (l2.drop r)

/-- Leftmost match: re.search of a token pattern, returning the
captured trailing group. -/
def searchTokens (toks : List (List Char)) : List Char → Option (List Char)
  | [] => matchTokensAt toks []
  | c :: cs =>
      match matchTokensAt toks (c :: cs) with
      | some r => some r
      | none => searchTokens toks cs

/-- String wrapper for the command searches of the RUN parsers. -/
def re_search_rest (toks : List String) (s : String) : Option String :=
  (searchTokens (toks.map String.toList) s.toList).map String.mk

/-- Core of the apt short-flag pattern: a dash followed by the ordered
alternation y, yes, q, quiet, f, force, where the one-letter branches
shadow the longer ones exactly as in the regex engine. -/
def aptFlagCore (l : List Char) : Option Nat :=
  match l with
  | '-' :: c :: _ =>
      if c = 'y' || c = 'q' || c = 'f' then some 2 else none
  | _ => none

/-- Core of the long-flag pattern two dashes then letters or dashes,
used by the apk and npm cleanups. -/
def longFlagCore (l : List Char) : Option Nat :=
  match l with
  | '-' :: '-' :: rest =>
      let run := rest.takeWhile (fun c => c.isAlpha || c = '-')
      if run ≠ [] then some (2 + run.length) else none
  | _ => none

/-- Core of the yum short-flag pattern: a dash then a single letter. -/
def yumFlagCore (l : List Char) : Option Nat :=
  match l with
  | '-' :: c :: _ => if c.isAlpha then some 2 else none
  | _ => none

/-- Core matching one literal flag followed by a word boundary, used by
the pip cleanups. -/
def litBoundaryCore (lit : List Char) (l : List Char) : Option Nat :=
  match matchLitCS lit l with
  | none => none
  | some rest =>
      match rest with
      | [] => some lit.length
      | c :: _ =>
          if c.isAlphanum || c = '_' then none else some lit.length

/-- Attempt one match of optional leading whitespace, the core, and,
when eatTrailing is set, optional trailing whitespace, returning the
total consumed length. -/
def tryWrappedMatch (core : List Char → Option Nat) (eatTrailing : Bool)
    (l : List Char) : Option Nat :=
  let r := wsRunLen l
  match core (l.drop r) with
  | none => none
  | some k =>
      if eatTrailing then some (r + k + wsRunLen (l.drop (r + k)))
      else some (r + k)

/-- Fueled left-to-right re.sub scan; every replacement consumes at
least one character, so fuel equal to the length always suffices. -/
def subWrappedAux (core : List Char → Option Nat) (eatTrailing : Bool)
    (rep : List Char) : Nat → List Char → List Char
  | 0, l => l
  | _ + 1, [] => []
  | fuel + 1, c :: cs =>
      match tryWrappedMatch core eatTrailing (c :: cs) with
      | some k => rep ++ subWrappedAux core eatTrailing rep fuel ((c :: cs).drop k)
      | none => c :: subWrappedAux core eatTrailing rep fuel cs

/-- re.sub of the wrapped pattern with a fixed replacement. -/
def subWrapped (core : List Char → Option Nat) (eatTrailing : Bool)
    (rep : String) (s : String) : String :=
  String.mk (subWrappedAux core eatTrailing rep.toList s.length s.toList)

/-- Index of the first double ampersand. -/
def chainIndex : List Char → Option Nat
  | [] => none
  | '&' :: '&' :: _ => some 0
  | _ :: cs => (chainIndex cs).map (· + 1)

/-- re.sub removing optional whitespace, a double ampersand and
everything after it (the chained-command truncation of the RUN
cleanups). -/
def truncAtChain (s : String) : String :=
  match chainIndex s.toList with
  | none => s
  | some i =>
      String.mk ((s.toList.take i).reverse.dropWhile isPyWhitespace).reverse

/-- Utility packages always excluded by the container policy
(DockerParser.should_include_package). -/
def docker_excluded_packages : List String :=
  ["curl", "wget", "ca-certificates", "gnupg", "lsb-release",
   "apt-transport-https", "software-properties-common",
   "build-essential", "make", "gcc", "g++", "git"]

/-- DockerParser.should_include_package: base filter plus the utility
allow-list. -/
def should_include_package_docker (name version : String) : Bool :=
  should_include_package_base name version &&
  !(docker_excluded_packages.contains (strLower name))

/-- DockerParser._parse_deb_package: split at the first equals sign,
version latest when absent. -/
def parse_deb_package (pkg_spec : String) : String × String :=
  match splitOnce pkg_spec "=" with
  | some (n, v) => (n.pyTrim, v.pyTrim)
  | none => (pkg_spec.pyTrim, "latest")

/-- DockerParser._parse_apk_package: identical grammar to the Debian
split. -/
def parse_apk_package (pkg_spec : String) : String × String :=
  parse_deb_package pkg_spec

/-- DockerParser._parse_rpm_package: split at the last dash when the
remainder starts with a digit or a dot. -/
def parse_rpm_package (pkg_spec : String) : String × String :=
  if strContainsSub pkg_spec "-" && !pkg_spec.pyStartsWith "-" then
    match rsplitOnce pkg_spec "-" with
    | some (n, v) =>
        match v.toList with
        | c :: _ => if c.isDigit || c = '.' then (n, v) else (pkg_spec, "latest")
        | [] => (pkg_spec, "latest")
    | none => (pkg_spec, "latest")
  else (pkg_spec, "latest")

/-- DockerParser._parse_pip_package: drop an extras group, then split
at the first operator of the ordered list. -/
def parse_pip_package (pkg_spec : String) : String × String :=
  let spec :=
    if strContainsSub pkg_spec "[" then beforeFirst pkg_spec "[" else pkg_spec
  match firstOperatorIn spec with
  | some op =>
      match splitOnce spec op with
      | some (n, v) => (n.pyTrim, v.pyTrim)
      | none => (spec.pyTrim, "latest")
  | none => (spec.pyTrim, "latest")

/-- DockerParser._parse_npm_package: split at the last at sign, with
scoped names requiring a second at sign. -/
def parse_npm_package (pkg_spec : String) : String × String :=
  if strContainsSub pkg_spec "@" && !pkg_spec.pyStartsWith "@" then
    match rsplitOnce pkg_spec "@" with
    | some (n, v) => (n.pyTrim, v.pyTrim)
    | none => (pkg_spec.pyTrim, "latest")
  else if pkg_spec.pyStartsWith "@" && (atPositions pkg_spec).length > 1 then
    match rsplitOnce pkg_spec "@" with
    | some (n, v) => (n.pyTrim, v.pyTrim)
    | none => (pkg_spec.pyTrim, "latest")
  else (pkg_spec.pyTrim, "latest")

/-- Emit loop shared by the five RUN package-manager scanners: skip
flags and the skip list, parse the name and version, apply the policy
and build the Package. -/
def emitRunPackages (names : List String) (skip : List String)
    (parseSpec : String → String × String) (eco : String)
    (file_path : String) (line_num : Nat) (original_line : String) :
    List Package :=
  names.foldl
    (fun acc pkg_name =>
      if pkg_name.pyStartsWith "-" || skip.contains pkg_name then acc
      else
        let nv := parseSpec pkg_name
        if nv.1 ≠ "" && should_include_package_docker nv.1 nv.2 then
          acc ++ [{ name := normalize_package_name nv.1
                    version := nv.2
                    source_locations :=
                      [create_source_location file_path line_num
                        original_line.pyTrim FileType.DOCKERFILE]
                    ecosystem := eco }]
        else acc)
    []

/-- DockerParser._parse_apt_packages (docker.py lines 222-285). The
optional environment-variable group of the regex does not change the
captured package list and is omitted here. -/
def parse_apt_packages (command : String) (file_path : String)
    (line_num : Nat) (original_line : String) : List Package :=
  [["apt-get", "install"], ["apt", "install"],
   ["aptitude", "install"]].foldl
    (fun acc toks =>
      match re_search_rest toks command with
      | none => acc
      | some package_list =>
          let pl := subWrapped aptFlagCore true " " package_list
          let pl := subWrapped
            (litBoundaryCore "--no-install-recommends".toList) true " " pl
          let pl := truncAtChain pl
          acc ++ emitRunPackages (pySplitWs pl)
            ["sudo", "curl", "wget", "ca-certificates"]
            parse_deb_package "debian" file_path line_num original_line)
    []

/-- DockerParser._parse_yum_packages (docker.py lines 287-334). -/
def parse_yum_packages (command : String) (file_path : String)
    (line_num : Nat) (original_line : String) : List Package :=
  [["yum", "install"], ["dnf", "install"], ["zypper", "install"]].foldl
    (fun acc toks =>
      match re_search_rest toks command with
      | none => acc
      | some package_list =>
          let pl := subWrapped yumFlagCore true " " package_list
          let pl := truncAtChain pl
          acc ++ emitRunPackages (pySplitWs pl) ["sudo", "curl", "wget"]
            parse_rpm_package "rpm" file_path line_num original_line)
    []

/-- DockerParser._parse_apk_packages (docker.py lines 347-389). -/
def parse_apk_packages (command : String) (file_path : String)
    (line_num : Nat) (original_line : String) : List Package :=
  match re_search_rest ["apk", "add"] command with
  | none => []
  | some package_list =>
      let pl := subWrapped longFlagCore true " " package_list
      let pl := truncAtChain pl
      emitRunPackages (pySplitWs pl) ["sudo", "curl", "wget"]
        parse_apk_package "alpine" file_path line_num original_line

/-- DockerParser._parse_pip_packages (docker.py lines 402-458);
requirements-file invocations are skipped per matching pattern. -/
def parse_pip_packages (command : String) (file_path : String)
    (line_num : Nat) (original_line : String) : List Package :=
  [["pip", "install"], ["pip3", "install"],
   ["python", "-m", "pip", "install"],
   ["python3", "-m", "pip", "install"]].foldl
    (fun acc toks =>
      match re_search_rest toks command with
      | none => acc
      | some package_list =>
          if strContainsSub package_list "-r " then acc
          else
            let pl := subWrapped
              (litBoundaryCore "--no-cache-dir".toList) false " " package_list
            let pl := subWrapped (litBoundaryCore "--user".toList) false " " pl
            let pl := subWrapped (litBoundaryCore "--upgrade".toList) false " " pl
            let pl := subWrapped
              (litBoundaryCore "--force-reinstall".toList) false " " pl
            let pl := truncAtChain pl
            acc ++ emitRunPackages (pySplitWs pl) []
              parse_pip_package "pypi" file_path line_num original_line)
    []

/-- DockerParser._parse_npm_packages (docker.py lines 476-524). -/
def parse_npm_packages (command : String) (file_path : String)
    (line_num : Nat) (original_line : String) : List Package :=
  [["npm", "install"], ["npm", "i"], ["yarn", "add"],
   ["pnpm", "add"]].foldl
    (fun acc toks =>
      match re_search_rest toks command with
      | none => acc
      | some package_list =>
          let pl := subWrapped longFlagCore true " " package_list
          let pl := truncAtChain pl
          acc ++ emitRunPackages (pySplitWs pl) []
            parse_npm_package "npm" file_path line_num original_line)
    []

/-- DockerParser._parse_run_instruction: drop the RUN keyword and scan
the command with all five package-manager grammars. -/
def parse_run_instruction (line : String) (file_path : String)
    (line_num : Nat) (original_line : String) : List Package :=
  let run_command := (line.pyDrop 4).pyTrim
  parse_apt_packages run_command file_path line_num original_line ++
  parse_yum_packages run_command file_path line_num original_line ++
  parse_apk_packages run_command file_path line_num original_line ++
  parse_pip_packages run_command file_path line_num original_line ++
  parse_npm_packages run_command file_path line_num original_line

/-- Anchored case-insensitive match of the FROM keyword, whitespace and
the first non-whitespace run, the image specifier. -/
def from_image_spec (line : String) : Option String :=
  match matchLitCI "FROM".toList line.toList with
  | none => none
  | some rest =>
      let r := wsRunLen rest
      if r = 0 then none
      else
        let spec := (rest.drop r).takeWhile (fun c => !isPyWhitespace c)
        if spec = [] then none else some (String.mk spec)

/-- DockerParser._parse_image_spec (docker.py lines 179-198): split the
image reference at the last colon; a digest suffix in the tag position
is cut at its first at sign, an empty result defaulting to latest. The
registry conditional of the source binds the same value in both
branches and is omitted as a no-op. -/
def parse_image_spec (image_spec : String) : String × String :=
  if strContainsSub image_spec ":" then
    match rsplitOnce image_spec ":" with
    | some (n, t) =>
        if strContainsSub t "@" then
          let t2 := beforeFirst t "@"
          (n, if t2 = "" then "latest" else t2)
        else (n, t)
    | none => (image_spec, "latest")
  else (image_spec, "latest")

/-- DockerParser.should_include_docker_image (docker.py lines 625-632):
only the scratch and busybox base images are skipped. -/
def should_include_docker_image (image_name _tag : String) : Bool :=
  !(image_name == "scratch" || image_name == "busybox")

/-- DockerParser._parse_from_instruction (docker.py lines 141-177). -/
def parse_from_instruction (line : String) (file_path : String)
    (line_num : Nat) (original_line : String) : List Package :=
  match from_image_spec line with
  | none => []
  | some image_spec =>
      if image_spec.pyStartsWith "--" then []
      else
        let nt := parse_image_spec image_spec
        if nt.1 ≠ "" && should_include_docker_image nt.1 nt.2 then
          [{ name := normalize_package_name nt.1
             version := if nt.2 = "" then "latest" else nt.2
             source_locations :=
               [create_source_location file_path line_num
                 original_line.pyTrim FileType.DOCKERFILE]
             ecosystem := "docker" }]
        else []

/-- DockerParser._parse_compose_image (docker.py lines 588-613): the
same image and tag logic applied to a compose service image value. -/
def parse_compose_image (image_spec : String) (file_path : String)
    (service_name : String) : List Package :=
  let nt := parse_image_spec image_spec
  if nt.1 ≠ "" && should_include_docker_image nt.1 nt.2 then
    [{ name := normalize_package_name nt.1
       version := if nt.2 = "" then "latest" else nt.2
       source_locations :=
         [create_source_location file_path 1
           ("services." ++ service_name ++ ".image: " ++ image_spec)
           FileType.DOCKERFILE]
       ecosystem := "docker" }]
  else []

/-- DockerParser._process_line_continuations (docker.py lines 92-139):
join backslash-continued lines, tracking the first line number and the
accumulated original text. -/
def process_line_continuations (lines : List String) :
    List (String × Nat × String) :=
  let final :=
    (enum1 lines).foldl
      (fun (st : List (String × Nat × String) × String × Nat × String) e =>
        let processed := st.1
        let cur := st.2.1
        let curNum := st.2.2.1
        let curOrig := st.2.2.2
        let line_num := e.1
        let line := e.2
        let stripped := line.pyTrim
        let next :=
          if cur ≠ "" && stripped ≠ "" then
            (processed,
             cur ++ " " ++ (rtrimChars stripped ['\\']).pyTrim,
             curNum,
             curOrig ++ " " ++ rtrimWs line)
          else
            let processed :=
              if cur ≠ "" then processed ++ [(cur, curNum, curOrig)]
              else processed
            (processed, (rtrimChars stripped ['\\']).pyTrim, line_num,
             rtrimWs line)
        if !stripped.pyEndsWith "\\" then
          let processed :=
            if next.2.1 ≠ "" then
              next.1 ++ [(next.2.1, next.2.2.1, next.2.2.2)]
            else next.1
          (processed, "", next.2.2.1, "")
        else next)
      ([], "", 1, "")
  if final.2.1 ≠ "" then
    final.1 ++ [(final.2.1, final.2.2.1, final.2.2.2)]
  else final.1

/-- DockerParser._parse_dockerfile (docker.py lines 52-90): dispatch
each joined instruction to the FROM and RUN handlers; COPY and ADD
contribute nothing (the source returns an empty list for them). -/
def parse_dockerfile_lines (file_path : String) (lines : List String) :
    List Package :=
  (process_line_continuations lines).foldl
    (fun acc info =>
      let line := info.1.pyTrim
      let line_num := info.2.1
      let original := info.2.2
      if line = "" || line.pyStartsWith "#" then acc
      else if line.pyUpper.pyStartsWith "FROM " then
        acc ++ parse_from_instruction line file_path line_num original
      else if line.pyUpper.pyStartsWith "RUN " then
        acc ++ parse_run_instruction line file_path line_num original
      else acc)
    []

/-! ## Concrete fixtures used by the claim instances -/

/-- A representative package with one source location, as every parser
constructor of the source emits. -/
def samplePackage : Package :=
  { name := "requests"
    version := "==2.25.1"
    source_locations :=
      [{ file_path := "/tmp/requirements.txt"
         line_number := 1
         declaration := "requests==2.25.1"
         file_type := FileType.REQUIREMENTS }]
    ecosystem := "pypi" }

/-- Requirement-list file of the scenario with requests, django and
pytest lines. -/
def c5FS : FS :=
  [("requirements.txt",
    ["requests==2.25.1", "django>=3.2.0,<4.0.0", "pytest==6.2.4"])]

/-- Requirement-list file that includes itself. -/
def cycFS : FS :=
  [("requirements.txt", ["-r requirements.txt"])]

/-- Tree with one unversioned Python requirement named requests. -/
def c1PyFS : FS := [("requirements.txt", ["requests"])]

/-- Manifest declaring requests at the latest tag in dependencies. -/
def c1JsManifest : PackageJsonData :=
  ⟨some [("requests", "latest")], none, none, none⟩

/-! ## Invariants of the merge fold -/

/-- Complete list of source locations carried, in order, by the packages
of l whose merge key is k. -/
def locsFor (key : Package → String) (l : List Package) (k : String) :
    List SourceLocation :=
  ((l.filter (fun p => key p == k)).map Package.source_locations).flatten

/-- Invariant tying the de-duplication accumulator to the packages
processed so far: keys are pairwise distinct, each record carries the
concatenation of all source locations seen for its key, every processed
key is represented, and every record stems from a processed package. -/
structure MergeInv (key : Package → String)
    (processed acc : List Package) : Prop where
  nodup : (acc.map key).Nodup
  locs : ∀ q ∈ acc, q.source_locations = locsFor key processed (key q)
  covers : ∀ p ∈ processed, ∃ q ∈ acc, key q = key p
  origin : ∀ q ∈ acc, ∃ p ∈ processed, key p = key q

theorem key_update_nv (q : Package) (l : List SourceLocation) :
    mergeKeyNV { q with source_locations := l } = mergeKeyNV q := rfl

theorem key_update_nve (q : Package) (l : List SourceLocation) :
    mergeKeyNVE { q with source_locations := l } = mergeKeyNVE q := rfl

/-- Appending one package changes the collected locations of a key by
exactly that package contribution. -/
theorem locsFor_append_single (key : Package → String)
    (processed : List Package) (p : Package) (k : String) :
    locsFor key (processed ++ [p]) k =
      locsFor key processed k ++
        (if key p = k then p.source_locations else []) := by
  by_cases hpk : key p = k
  · simp [locsFor, List.filter_append, hpk]
  · simp [locsFor, List.filter_append, hpk]

/-- A key that occurs nowhere collects no locations. -/
theorem locsFor_eq_nil (key : Package → String) (l : List Package)
    (k : String) (h : ∀ r ∈ l, key r ≠ k) : locsFor key l k = [] := by
  have : l.filter (fun p => key p == k) = [] := by
    rw [List.filter_eq_nil_iff]
    intro a ha
    simp [beq_iff_eq]
    exact h a ha
  simp [locsFor, this]

theorem mergeInv_insertBy (key : Package → String)
    (hkey : ∀ q l, key { q with source_locations := l } = key q)
    (processed acc : List Package) (p : Package)
    (h : MergeInv key processed acc) :
    MergeInv key (processed ++ [p]) (insertBy key acc p) := by
  by_cases hmem : acc.any (fun q => key q == key p)
  · -- key already present: the matching record absorbs the locations
    obtain ⟨q0, hq0mem, hq0key⟩ : ∃ q0 ∈ acc, key q0 = key p := by
      simpa [List.any_eq_true, beq_iff_eq] using hmem
    have hupd : ∀ q, key (if key q == key p then
        { q with source_locations := q.source_locations ++ p.source_locations }
        else q) = key q := by
      intro q
      by_cases hk : (key q == key p)
      · simp [hk, hkey]
      · simp [hk]
    rw [insertBy, if_pos hmem]
    refine ⟨?_, ?_, ?_, ?_⟩
    · rw [List.map_map]
      have heq : acc.map ((fun q => key q) ∘ (fun q =>
          if key q == key p then
            { q with source_locations := q.source_locations ++ p.source_locations }
          else q)) = acc.map key := by
        rw [List.map_eq_map_iff]
        intro q _
        exact hupd q
      rw [heq]
      exact h.nodup
    · intro q' hq'
      obtain ⟨q, hqmem, rfl⟩ := List.mem_map.mp hq'
      rw [show key (if key q == key p then
          { q with source_locations := q.source_locations ++ p.source_locations }
          else q) = key q from hupd q]
      rw [locsFor_append_single, ← h.locs q hqmem]
      by_cases hk : key q = key p
      · simp [beq_iff_eq, hk]
      · have hpq : key p ≠ key q := fun h' => hk h'.symm
        simp [beq_iff_eq, hk, hpq]
    · intro p' hp'
      rcases List.mem_append.mp hp' with hold | hnew
      · obtain ⟨q, hq, hkq⟩ := h.covers p' hold
        refine ⟨_, List.mem_map.mpr ⟨q, hq, rfl⟩, ?_⟩
        rw [hupd q]; exact hkq
      · have : p' = p := by simpa using hnew
        subst this
        refine ⟨_, List.mem_map.mpr ⟨q0, hq0mem, rfl⟩, ?_⟩
        rw [hupd q0]; exact hq0key
    · intro q' hq'
      obtain ⟨q, hqmem, rfl⟩ := List.mem_map.mp hq'
      obtain ⟨p', hp', hk⟩ := h.origin q hqmem
      exact ⟨p', List.mem_append.mpr (Or.inl hp'), by rw [hupd q]; exact hk⟩
  · -- fresh key: the package is appended unchanged
    have hnone : ∀ q ∈ acc, key q ≠ key p := by
      intro q hq heq
      exact hmem (List.any_eq_true.mpr ⟨q, hq, by simp [beq_iff_eq, heq]⟩)
    have hproc : ∀ p' ∈ processed, key p' ≠ key p := by
      intro p' hp' heq
      obtain ⟨q, hq, hkq⟩ := h.covers p' hp'
      exact hnone q hq (hkq.trans heq)
    rw [insertBy, if_neg hmem]
    refine ⟨?_, ?_, ?_, ?_⟩
    · rw [List.map_append]
      refine List.Nodup.append h.nodup (List.nodup_singleton _) ?_
      intro a ha hb
      obtain ⟨q, hq, rfl⟩ := List.mem_map.mp ha
      have : key q = key p := by simpa using hb
      exact hnone q hq this
    · intro q' hq'
      rcases List.mem_append.mp hq' with hold | hnew
      · rw [locsFor_append_single, ← h.locs q' hold]
        have : key p ≠ key q' := fun h' => hnone q' hold h'.symm
        simp [this]
      · have : q' = p := by simpa using hnew
        subst this
        rw [locsFor_append_single]
        rw [locsFor_eq_nil key processed (key q') hproc]
        simp
    · intro p' hp'
      rcases List.mem_append.mp hp' with hold | hnew
      · obtain ⟨q, hq, hkq⟩ := h.covers p' hold
        exact ⟨q, List.mem_append.mpr (Or.inl hq), hkq⟩
      · have : p' = p := by simpa using hnew
        exact ⟨p, List.mem_append.mpr (Or.inr (by simp)), by rw [this]⟩
    · intro q' hq'
      rcases List.mem_append.mp hq' with hold | hnew
      · obtain ⟨p', hp', hk⟩ := h.origin q' hold
        exact ⟨p', List.mem_append.mpr (Or.inl hp'), hk⟩
      · have : q' = p := by simpa using hnew
        exact ⟨p, List.mem_append.mpr (Or.inr (by simp)), by rw [this]⟩

theorem mergeInv_foldl (key : Package → String)
    (hkey : ∀ q l, key { q with source_locations := l } = key q) :
    ∀ (l processed acc : List Package), MergeInv key processed acc →
      MergeInv key (processed ++ l) (l.foldl (insertBy key) acc)
  | [], processed, acc, h => by simpa using h
  | p :: l, processed, acc, h => by
      have h1 := mergeInv_insertBy key hkey processed acc p h
      have h2 := mergeInv_foldl key hkey l (processed ++ [p])
        (insertBy key acc p) h1
      rw [List.foldl_cons]
      simpa [List.append_assoc] using h2

theorem foldInsertBy_mergeInv (key : Package → String)
    (hkey : ∀ q l, key { q with source_locations := l } = key q)
    (l : List Package) : MergeInv key l (foldInsertBy key l) := by
  have h0 : MergeInv key [] [] :=
    ⟨List.nodup_nil, by simp, by simp, by simp⟩
  have h1 := mergeInv_foldl key hkey l [] [] h0
  simpa [foldInsertBy] using h1

theorem parse_all_files_foldl_aux :
    ∀ (results : List (Except String (List Package))) (acc : List Package),
      results.foldl
        (fun acc r =>
          match r with
          | Except.error _ => acc
          | Except.ok pkgs => pkgs.foldl (insertBy mergeKeyNV) acc)
        acc
      = (okConcat results).foldl (insertBy mergeKeyNV) acc
  | [], _ => rfl
  | Except.error _ :: rs, acc => by
      rw [List.foldl_cons]
      exact parse_all_files_foldl_aux rs acc
  | Except.ok pkgs :: rs, acc => by
      rw [List.foldl_cons]
      rw [show okConcat (Except.ok pkgs :: rs) = pkgs ++ okConcat rs from rfl]
      rw [List.foldl_append]
      exact parse_all_files_foldl_aux rs (pkgs.foldl (insertBy mergeKeyNV) acc)

/-- The per-file merge loop of parse_all_files is the flat fold over the
concatenation of the successfully parsed lists. -/
theorem parse_all_files_eq_foldInsertBy
    (results : List (Except String (List Package))) :
    parse_all_files results = foldInsertBy mergeKeyNV (okConcat results) :=
  parse_all_files_foldl_aux results []

theorem discover_dependencies_eq_foldInsertBy
    (parserResults : List (Except String (List Package))) :
    discover_dependencies parserResults
      = foldInsertBy mergeKeyNVE (okConcat parserResults) := rfl

/-- Membership in the concatenation of successful results. -/
theorem mem_okConcat_of_mem :
    ∀ (results : List (Except String (List Package)))
      (pkgs : List Package) (p : Package),
      Except.ok pkgs ∈ results → p ∈ pkgs → p ∈ okConcat results
  | [], _, _, hmem, _ => by cases hmem
  | r :: rs, pkgs, p, hmem, hp => by
      rcases List.mem_cons.mp hmem with heq | htail
      · subst heq
        exact List.mem_append.mpr (Or.inl hp)
      · cases r with
        | error e => exact mem_okConcat_of_mem rs pkgs p htail hp
        | ok l =>
            exact List.mem_append.mpr
              (Or.inr (mem_okConcat_of_mem rs pkgs p htail hp))

theorem okConcat_append :
    ∀ (as bs : List (Except String (List Package))),
      okConcat (as ++ bs) = okConcat as ++ okConcat bs
  | [], _ => rfl
  | Except.error _ :: as, bs => by
      simp [okConcat, okConcat_append as bs]
  | Except.ok l :: as, bs => by
      simp [okConcat, okConcat_append as bs]

theorem sum_map_ones {α : Type} (l : List α) (f : α → Nat)
    (h : ∀ x ∈ l, f x = 1) : (l.map f).sum = l.length := by
  induction l with
  | nil => rfl
  | cons a t ih =>
      simp only [List.map_cons, List.sum_cons, List.length_cons]
      rw [h a (List.mem_cons_self a t), ih (fun x hx => h x (List.mem_cons_of_mem a hx))]
      omega

theorem parse_package_json_dependencies_single_loc (fp : String) :
    ∀ (entries : List (String × String)) (acc : List Package),
      (∀ p ∈ acc, p.source_locations.length = 1) →
      ∀ p ∈ entries.foldl
        (fun acc e =>
          if should_include_package_js e.1 e.2 then
            acc ++ [{ name := normalize_package_name e.1
                      version := normalize_npm_version e.2
                      source_locations :=
                        [create_source_location fp 1
                          ("\"" ++ e.1 ++ "\": \"" ++ e.2 ++ "\"")
                          FileType.PACKAGE_JSON]
                      ecosystem := "npm" }]
          else acc) acc,
        p.source_locations.length = 1
  | [], acc, hacc, p, hp => hacc p hp
  | e :: t, acc, hacc, p, hp => by
      refine parse_package_json_dependencies_single_loc fp t _ ?_ p hp
      intro q hq
      dsimp only at hq
      by_cases hc : should_include_package_js e.1 e.2
      · rw [if_pos hc] at hq
        rcases List.mem_append.mp hq with h1 | h2
        · exact hacc q h1
        · have hqe := List.mem_singleton.mp h2
          simp [hqe]
      · rw [if_neg hc] at hq
        exact hacc q hq

theorem parse_package_json_section_single_loc (fp : String)
    (s : Option (List (String × String))) (acc : List Package)
    (hacc : ∀ p ∈ acc, p.source_locations.length = 1) :
    ∀ p ∈ ((match s with
           | none => acc
           | some entries => acc ++ parse_package_json_dependencies entries fp :
        List Package)),
      p.source_locations.length = 1 := by
  cases s with
  | none => exact hacc
  | some entries =>
      intro p hp
      rcases List.mem_append.mp hp with h1 | h2
      · exact hacc p h1
      · exact parse_package_json_dependencies_single_loc fp entries []
          (by simp) p h2

/-- Every package the manifest parser emits carries exactly one source
location, the fact the completeness hypothesis of C2 records. -/
theorem parse_package_json_single_loc (data : PackageJsonData)
    (fp : String) :
    ∀ p ∈ parse_package_json data fp, p.source_locations.length = 1 := by
  have h1 := parse_package_json_section_single_loc fp data.dependencies []
    (by simp)
  have h2 := parse_package_json_section_single_loc fp data.devDependencies _ h1
  have h3 := parse_package_json_section_single_loc fp data.peerDependencies _ h2
  have h4 := parse_package_json_section_single_loc fp
    data.optionalDependencies _ h3
  exact h4

/-! ## Claim theorems -/

/-- C1 counterexample: the final inventory produced by folding the
results of the Python and the JavaScript parser on a tree declaring
requests with no version in a requirement list and requests at the
latest tag in a manifest carries two records with the same
(normalized_name, version) merge key, because the cross-parser fold
keys on name:version:ecosystem. The claim that the inventory holds at
most one Package per (normalized_name, version) is therefore false. -/
theorem C1_counterexample :
    ((discover_dependencies
        [Except.ok (parse_all_files
            [Except.ok ((parse_requirements_txt c1PyFS 1 "requirements.txt").getD [])]),
         Except.ok (parse_all_files
            [Except.ok (parse_package_json c1JsManifest "package.json")])]).map
        (fun p => (normalize_package_name p.name, p.version))
      = [("requests", "latest"), ("requests", "latest")]) ∧
    ¬ ((discover_dependencies
        [Except.ok (parse_all_files
            [Except.ok ((parse_requirements_txt c1PyFS 1 "requirements.txt").getD [])]),
         Except.ok (parse_all_files
            [Except.ok (parse_package_json c1JsManifest "package.json")])]).map
        (fun p => (normalize_package_name p.name, p.version))).Nodup := by
  constructor
  · rfl
  · decide

/-- C1 (amended): the final inventory is de-duplicated by the full
merge key (name, version, ecosystem) - names are already normalized by
the parsers - and each record carries the concatenation, in discovery
order, of every source-location list seen for its key. -/
theorem C1_inventory_deduped_by_full_key
    (parserResults : List (Except String (List Package))) :
    ((discover_dependencies parserResults).map mergeKeyNVE).Nodup ∧
    ∀ q ∈ discover_dependencies parserResults,
      q.source_locations
        = locsFor mergeKeyNVE (okConcat parserResults) (mergeKeyNVE q) := by
  have inv := foldInsertBy_mergeInv mergeKeyNVE key_update_nve
    (okConcat parserResults)
  exact ⟨inv.nodup, inv.locs⟩

/-- C1 witness: the amended statement evaluated on a singleton result
list. -/
theorem C1_inventory_deduped_by_full_key_witness :
    ((discover_dependencies [Except.ok [samplePackage]]).map mergeKeyNVE).Nodup ∧
    samplePackage.source_locations
      = locsFor mergeKeyNVE (okConcat [Except.ok [samplePackage]])
          (mergeKeyNVE samplePackage) := by
  have h := C1_inventory_deduped_by_full_key [Except.ok [samplePackage]]
  exact ⟨h.1, h.2 samplePackage (by decide)⟩

/-- C2: in the merged output of parse_all_files, every package carries
exactly one source location per declaration of its merge key across
the successfully parsed files - the list length equals the number of
such declarations and is in particular at least one; nothing is
truncated. The hypothesis records that every parser constructor of the
source emits exactly one location per declaration. -/
theorem C2_source_locations_complete
    (results : List (Except String (List Package)))
    (h : ∀ p ∈ okConcat results, p.source_locations.length = 1) :
    ∀ q ∈ parse_all_files results,
      q.source_locations.length
          = (okConcat results).countP (fun p => mergeKeyNV p == mergeKeyNV q) ∧
        1 ≤ q.source_locations.length := by
  intro q hq
  rw [parse_all_files_eq_foldInsertBy] at hq
  have inv := foldInsertBy_mergeInv mergeKeyNV key_update_nv (okConcat results)
  have hlocs := inv.locs q hq
  have hcount : q.source_locations.length
      = (okConcat results).countP (fun p => mergeKeyNV p == mergeKeyNV q) := by
    rw [hlocs, locsFor, List.length_flatten, List.map_map,
      List.countP_eq_length_filter]
    exact sum_map_ones _ _
      (fun x hx => h x (List.mem_of_mem_filter hx))
  refine ⟨hcount, ?_⟩
  obtain ⟨p, hp, hkp⟩ := inv.origin q hq
  have hpf : p ∈ (okConcat results).filter
      (fun r => mergeKeyNV r == mergeKeyNV q) :=
    List.mem_filter.mpr ⟨hp, by simp [beq_iff_eq, hkp]⟩
  rw [hcount, List.countP_eq_length_filter]
  have := List.length_pos.mpr (List.ne_nil_of_mem hpf)
  omega

/-- C2 witness: the completeness statement evaluated on a singleton
result list. -/
theorem C2_source_locations_complete_witness :
    samplePackage.source_locations.length
        = (okConcat [Except.ok [samplePackage]]).countP
            (fun p => mergeKeyNV p == mergeKeyNV samplePackage) ∧
      1 ≤ samplePackage.source_locations.length := by
  have h := C2_source_locations_complete [Except.ok [samplePackage]] (by decide)
  exact h samplePackage (by decide)

/-- C3: the classic lockfile block with two range specifiers for lodash
and the indented resolved version 4.17.21 yields no package at all -
the line is stripped before the indentation check, so the version
branch never fires. The claim (and the unit test of the repository)
expects exactly one lodash 4.17.21 package; this is a defect of the
code. -/
theorem C3_yarn_lock_block_yields_nothing :
    parse_yarn_lock
      ["lodash@^4.17.19, lodash@^4.17.20:", "  version \"4.17.21\""]
      "yarn.lock" = [] := by rfl

/-- C4 counterexample: an entry of the devDependencies section whose
name passes the name-based policy does appear in the parser output, so
devDependencies is not excluded as a section. -/
theorem C4_counterexample :
    (parse_package_json ⟨none, some [("express", "^4.17.1")], none, none⟩
        "package.json").map Package.name = ["express"] := by rfl

/-- C4 (amended): the devDependencies section is parsed exactly like
the other three sections; an entry appears in the output precisely when
it passes the name and version based inclusion policy. -/
theorem C4_devdeps_filtered_by_name_policy_only (n v : String) :
    (parse_package_json ⟨none, some [(n, v)], none, none⟩
        "package.json").map (fun p => (p.name, p.version))
      = if should_include_package_js n v then
          [(normalize_package_name n, normalize_npm_version v)]
        else [] := by
  by_cases h : should_include_package_js n v
  · simp [parse_package_json, parse_package_json_dependencies, h]
  · simp [parse_package_json, parse_package_json_dependencies, h]

/-- C5 counterexample: the scenario file yields three packages, pytest
included - pytest sits on the security-relevant allow-list of the
Python policy, so the claim that it is excluded is false. -/
theorem C5_counterexample :
    ((parse_requirements_txt c5FS 1 "requirements.txt").getD []).map
        Package.name = ["requests", "django", "pytest"] := by rfl

/-- C5 (amended): the scenario file yields exactly three reportable
packages - requests ==2.25.1, django >=3.2.0 (first constraint of the
comma-separated list) and pytest ==6.2.4, the latter included through
the security-relevant allow-list. -/
theorem C5_requirements_scenario :
    (parse_requirements_txt c5FS 1 "requirements.txt").map
        (List.map (fun p => (p.name, p.version, p.ecosystem)))
      = some [("requests", "==2.25.1", "pypi"), ("django", ">=3.2.0", "pypi"),
              ("pytest", "==6.2.4", "pypi")] := by rfl

/-- C6: an error raised for one discovered file neither aborts nor
changes the parse of the other files - the merged output equals the
output without the failing file, and every package of every
successfully parsed file is still represented in the result. -/
theorem C6_single_file_error_isolated
    (xs ys : List (Except String (List Package))) (e : String) :
    parse_all_files (xs ++ Except.error e :: ys)
        = parse_all_files (xs ++ ys) ∧
    ∀ pkgs p, Except.ok pkgs ∈ xs ++ ys → p ∈ pkgs →
      ∃ q ∈ parse_all_files (xs ++ Except.error e :: ys),
        mergeKeyNV q = mergeKeyNV p := by
  have hok : okConcat (xs ++ Except.error e :: ys) = okConcat (xs ++ ys) := by
    rw [okConcat_append, okConcat_append]
    rfl
  constructor
  · rw [parse_all_files_eq_foldInsertBy, parse_all_files_eq_foldInsertBy, hok]
  · intro pkgs p hmem hp
    have hpc : p ∈ okConcat (xs ++ Except.error e :: ys) := by
      rw [hok]
      exact mem_okConcat_of_mem (xs ++ ys) pkgs p hmem hp
    rw [parse_all_files_eq_foldInsertBy]
    exact (foldInsertBy_mergeInv mergeKeyNV key_update_nv _).covers p hpc

/-- C6 witness: one good file followed by a failing file still yields
the package of the good file. -/
theorem C6_single_file_error_isolated_witness :
    ∃ q ∈ parse_all_files [Except.ok [samplePackage], Except.error "boom"],
      mergeKeyNV q = mergeKeyNV samplePackage :=
  (C6_single_file_error_isolated [Except.ok [samplePackage]] [] "boom").2
    [samplePackage] samplePackage (by simp) (by simp)

/-- Processing the self-include line reduces to the recursive parse of
the same file. -/
theorem parseReqLines_cycle_step (sub : String → Option (List Package))
    (h : sub "requirements.txt" = none) :
    parseReqLines sub cycFS "requirements.txt"
      [(1, "-r requirements.txt")] = none := by
  have e1 : parseReqLines sub cycFS "requirements.txt"
        [(1, "-r requirements.txt")]
      = match sub "requirements.txt" with
        | none => none
        | some s =>
            match parseReqLines sub cycFS "requirements.txt" [] with
            | none => none
            | some tail => some (s ++ tail) := rfl
  rw [e1, h]

/-- C7: on a requirement-list file whose single line includes the file
itself, the parse never completes at any include depth - the source
recurses with no visited set and no depth bound, so the claimed
termination guarantee does not hold in the code. -/
theorem C7_cyclic_include_never_completes (fuel : Nat) :
    parse_requirements_txt cycFS fuel "requirements.txt" = none := by
  induction fuel with
  | zero => rfl
  | succ n ih =>
      have e : parse_requirements_txt cycFS (n + 1) "requirements.txt"
          = parseReqLines (parse_requirements_txt cycFS n) cycFS
              "requirements.txt" [(1, "-r requirements.txt")] := rfl
      rw [e]
      exact parseReqLines_cycle_step _ ih

/-- C8: the editable VCS requirement with an egg fragment yields a
package named repo with version latest - the inline-comment strip
removes the fragment before the dedicated egg handling can run, the
name falls back to the URL path, and neither the editable flag nor the
URL is recorded on the Package (the enhanced name carrying them is
computed and discarded by the source). The claim describes the
documented intent, which the code misses. -/
theorem C8_egg_fragment_lost :
    parse_requirement_line
        "-e git+https://github.com/user/repo.git#egg=mypackage"
        "/tmp/requirements.txt" 1
        "-e git+https://github.com/user/repo.git#egg=mypackage"
      = some { name := "repo"
               version := "latest"
               source_locations :=
                 [{ file_path := "/tmp/requirements.txt"
                    line_number := 1
                    declaration :=
                      "-e git+https://github.com/user/repo.git#egg=mypackage"
                    file_type := FileType.REQUIREMENTS }]
               ecosystem := "pypi" } := by rfl

/-- C9: the single apt-get RUN instruction yields exactly the two
Debian-manager packages nginx 1.18.0-0ubuntu1.2 (split at the first
equals sign) and python3 latest, with the -y flag stripped. -/
theorem C9_apt_install_run_line :
    parse_dockerfile_lines "Dockerfile"
        ["RUN apt-get install -y nginx=1.18.0-0ubuntu1.2 python3"]
      = [{ name := "nginx"
           version := "1.18.0-0ubuntu1.2"
           source_locations :=
             [{ file_path := "Dockerfile"
                line_number := 1
                declaration :=
                  "RUN apt-get install -y nginx=1.18.0-0ubuntu1.2 python3"
                file_type := FileType.DOCKERFILE }]
           ecosystem := "debian" },
         { name := "python3"
           version := "latest"
           source_locations :=
             [{ file_path := "Dockerfile"
                line_number := 1
                declaration :=
                  "RUN apt-get install -y nginx=1.18.0-0ubuntu1.2 python3"
                file_type := FileType.DOCKERFILE }]
           ecosystem := "debian" }] := by rfl

/-- The anchored FROM regex extracts a whitespace-free non-empty image
specifier verbatim. -/
theorem from_image_spec_concat (spec : String) (h1 : spec ≠ "")
    (h2 : ∀ c ∈ spec.toList, isPyWhitespace c = false) :
    from_image_spec ("FROM " ++ spec) = some spec := by
  obtain ⟨l⟩ := spec
  have hl : l ≠ [] := by
    intro hnil
    exact h1 (by rw [hnil])
  have htw : l.takeWhile isPyWhitespace = [] := by
    cases l with
    | nil => rfl
    | cons c cs =>
        have hc : isPyWhitespace c = false := h2 c (List.mem_cons_self c cs)
        simp [List.takeWhile_cons, hc]
  have htw2 : l.takeWhile (fun c => !isPyWhitespace c) = l :=
    List.takeWhile_eq_self_iff.mpr (fun c hc => by simp [h2 c hc])
  have hws : wsRunLen (' ' :: l) = 1 := by
    have hsp : isPyWhitespace ' ' = true := rfl
    simp [wsRunLen, List.takeWhile_cons, hsp, htw]
  show (if wsRunLen (' ' :: l) = 0 then none
        else if ((' ' :: l).drop (wsRunLen (' ' :: l))).takeWhile
            (fun c => !isPyWhitespace c) = [] then none
        else some (String.mk (((' ' :: l).drop
            (wsRunLen (' ' :: l))).takeWhile (fun c => !isPyWhitespace c))))
      = some (String.mk l)
  rw [hws, if_neg (by omega : ¬(1 : Nat) = 0),
    show (' ' :: l).drop 1 = l from rfl, htw2, if_neg hl]

/-- C10: a FROM instruction or compose image value whose parsed image
name is exactly scratch or busybox emits no package, and every other
accepted image emits exactly one package whose version is the parsed
tag, or latest when the reference carries no tag. -/
theorem C10_scratch_busybox_images_excluded (spec : String) (h1 : spec ≠ "")
    (h2 : ∀ c ∈ spec.toList, isPyWhitespace c = false)
    (h3 : spec.pyStartsWith "--" = false)
    (h4 : (parse_image_spec spec).1 ≠ "") :
    ((parse_from_instruction ("FROM " ++ spec) "Dockerfile" 1
          ("FROM " ++ spec)).map (fun p => (p.name, p.version))
      = if (parse_image_spec spec).1 = "scratch"
            ∨ (parse_image_spec spec).1 = "busybox" then []
        else [(normalize_package_name (parse_image_spec spec).1,
               if (parse_image_spec spec).2 = "" then "latest"
               else (parse_image_spec spec).2)]) ∧
    ((parse_compose_image spec "docker-compose.yml" "web").map
        (fun p => (p.name, p.version))
      = if (parse_image_spec spec).1 = "scratch"
            ∨ (parse_image_spec spec).1 = "busybox" then []
        else [(normalize_package_name (parse_image_spec spec).1,
               if (parse_image_spec spec).2 = "" then "latest"
               else (parse_image_spec spec).2)]) := by
  have hfrom := from_image_spec_concat spec h1 h2
  by_cases hsb : (parse_image_spec spec).1 = "scratch"
      ∨ (parse_image_spec spec).1 = "busybox"
  · have hinc : should_include_docker_image (parse_image_spec spec).1
        (parse_image_spec spec).2 = false := by
      rcases hsb with h | h <;> simp [should_include_docker_image, h]
    constructor
    · simp [parse_from_instruction, hfrom, h3, hinc, hsb]
    · simp [parse_compose_image, hinc, hsb]
  · obtain ⟨hs, hb⟩ := not_or.mp hsb
    have hinc : should_include_docker_image (parse_image_spec spec).1
        (parse_image_spec spec).2 = true := by
      simp [should_include_docker_image, hs, hb]
    constructor
    · simp [parse_from_instruction, hfrom, h3, hinc, hsb, h4]
    · simp [parse_compose_image, hinc, hsb, h4]

/-- C10 witness: scratch is dropped while nginx and redis references
keep their tags. -/
theorem C10_scratch_busybox_images_excluded_witness :
    ((parse_from_instruction ("FROM " ++ "scratch") "Dockerfile" 1
          ("FROM " ++ "scratch")).map (fun p => (p.name, p.version)) = []) ∧
    ((parse_from_instruction ("FROM " ++ "nginx:1.21.0") "Dockerfile" 1
          ("FROM " ++ "nginx:1.21.0")).map (fun p => (p.name, p.version))
        = [("nginx", "1.21.0")]) ∧
    ((parse_compose_image "redis:6.2.5" "docker-compose.yml" "web").map
        (fun p => (p.name, p.version)) = [("redis", "6.2.5")]) := by
  have hA := C10_scratch_busybox_images_excluded "scratch"
    (by decide) (by decide) (by decide) (by decide)
  have hB := C10_scratch_busybox_images_excluded "nginx:1.21.0"
    (by decide) (by decide) (by decide) (by decide)
  have hC := C10_scratch_busybox_images_excluded "redis:6.2.5"
    (by decide) (by decide) (by decide) (by decide)
  exact ⟨(hA.1).trans (by decide), (hB.1).trans (by decide),
    (hC.2).trans (by decide)⟩

end SCA
